import Mathlib

/-!
Shallow embedding of the execution-coordination subsystem of the worker:
the in-memory cancellation registry (`_active_agents` in
`activities/agent_activities.py`), the cancel activity `cancel_agent_run`,
the streaming loop `stream_agent_run`, the session service
(`services/session_service.py`), the executor's periodic snapshot task and
final persist (`services/agent_executor.py`), and the retry wrapper.

Machine integers do not occur; timestamps are abstracted to `Nat` (the code
only ever formats them, never compares them).  External collaborators (the
Agno engine, the control-plane store) are passed in as explicit oracles so
that each code path of the embedded functions corresponds to one oracle
answer.
-/

namespace Worker

/-- A persisted session message.  Mirrors the dicts built in
`agent_activities.py` / `session_service.py`: `role`, `content`, a
timestamp (abstracted to `Nat`) and the optional user identity.  The
`user_name` / `user_email` fields of the source are always `None` for the
dataclass inputs in scope (`getattr(input, "user_name", None)` on a class
without that field) and are omitted. -/
structure Message where
  role : String
  content : String
  timestamp : Nat := 0
  user_id : Option String := none
  deriving Repr, DecidableEq

/-- Python truthiness for an optional string: `None` and `""` are falsy.
Used wherever the source writes `if x:` on an optional string value. -/
def truthy : Option String → Option String
  | none => none
  | some s => if s = "" then none else some s

/-- One value of the global registry `_active_agents`:
`{"agent": Agent, "run_id": ..., "started_at": ...}`.  The Agno `Agent`
instance is opaque; it is modelled by a `Nat` handle that the engine
oracle consumes. -/
structure AgentEntry where
  agent : Nat
  run_id : Option String := none
  started_at : Nat := 0
  deriving Repr, DecidableEq

/-- The global registry `_active_agents : Dict[str, Dict]`, modelled as an
association list with the dict operations below. -/
abbrev Registry := List (String × AgentEntry)

/-- Dict lookup `_active_agents[k]` / membership `k in _active_agents`. -/
def Registry.find : Registry → String → Option AgentEntry
  | [], _ => none
  | p :: t, k => if p.1 = k then some p.2 else Registry.find t k

/-- Dict membership test `k in _active_agents`. -/
def Registry.contains (reg : Registry) (k : String) : Bool :=
  (reg.find k).isSome

/-- Dict deletion `del _active_agents[k]` (total: removing an absent key is
a no-op, which the source guards with `if k in _active_agents`). -/
def Registry.eraseKey : Registry → String → Registry
  | [], _ => []
  | p :: t, k => if p.1 = k then Registry.eraseKey t k else p :: Registry.eraseKey t k

/-- Dict assignment `_active_agents[k] = v` (overwrites any previous
entry for the same key). -/
def Registry.insert (reg : Registry) (k : String) (v : AgentEntry) : Registry :=
  reg.eraseKey k ++ [(k, v)]

/-- The write `_active_agents[execution_id]["run_id"] = agno_run_id`,
performed only when the key is present (`if execution_id in
_active_agents`); on an absent key the registry is unchanged. -/
def Registry.set_run_id : Registry → String → String → Registry
  | [], _, _ => []
  | p :: t, k, rid =>
    if p.1 = k then (p.1, { p.2 with run_id := some rid }) :: Registry.set_run_id t k rid
    else p :: Registry.set_run_id t k rid

theorem Registry.find_eraseKey_self (reg : Registry) (k : String) :
    (reg.eraseKey k).find k = none := by
  induction reg with
  | nil => rfl
  | cons p t ih =>
    by_cases h : p.1 = k
    · simpa [Registry.eraseKey, h] using ih
    · simp [Registry.eraseKey, Registry.find, h, ih]

theorem Registry.find_append (r1 r2 : Registry) (k : String) :
    (r1 ++ r2).find k = ((r1.find k).rec (r2.find k) fun v => some v) := by
  induction r1 with
  | nil => rfl
  | cons p t ih =>
    by_cases h : p.1 = k
    · simp [Registry.find, h]
    · simp [Registry.find, h, ih]

theorem Registry.find_insert_self (reg : Registry) (k : String) (v : AgentEntry) :
    (reg.insert k v).find k = some v := by
  simp [Registry.insert, Registry.find_append, Registry.find_eraseKey_self, Registry.find]

theorem Registry.find_set_run_id_self (reg : Registry) (k rid : String) :
    (reg.set_run_id k rid).find k = (reg.find k).map fun e => { e with run_id := some rid } := by
  induction reg with
  | nil => rfl
  | cons p t ih =>
    by_cases h : p.1 = k
    · simp [Registry.set_run_id, Registry.find, h]
    · simp [Registry.set_run_id, Registry.find, h, ih]

/-- Outcome of the engine call `agent.cancel_run(run_id)`: a boolean
return, or a raised exception carrying `str(e)`. -/
inductive AgnoCancelOutcome
  | ok (b : Bool)
  | exn (msg : String)
  deriving Repr, DecidableEq

/-- The structured result dict returned by `cancel_agent_run` (the fields
beyond `success` / `error` — `execution_id`, `run_id`, `cancelled_at` —
carry no decision content and are omitted). -/
structure CancelResult where
  success : Bool
  error : Option String := none
  deriving Repr, DecidableEq

/-- `cancel_agent_run` (activities/agent_activities.py:1022).  Looks the
execution up in `_active_agents`; absent → "Agent not found or already
completed"; falsy `run_id` → "Execution not started yet"; otherwise calls
`agent.cancel_run(run_id)`: `True` → success and the entry is deleted,
`False` → failure with the entry kept, a raised exception → failure with
`str(e)` and the entry kept (the `except` block never deletes). -/
def cancel_agent_run (cancel_run : Nat → String → AgnoCancelOutcome)
    (reg : Registry) (execution_id : String) : CancelResult × Registry :=
  match reg.find execution_id with
  | none => ({ success := false, error := some "Agent not found or already completed" }, reg)
  | some info =>
    match truthy info.run_id with
    | none => ({ success := false, error := some "Execution not started yet" }, reg)
    | some run_id =>
      match cancel_run info.agent run_id with
      | .ok true => ({ success := true, error := none }, reg.eraseKey execution_id)
      | .ok false => ({ success := false, error := some "Cancel failed - run may be completed" }, reg)
      | .exn msg => ({ success := false, error := some msg }, reg)

/-- Claim C1: cancel on an id absent from the registry fails with the
NotFound error and leaves the registry unchanged; cancel on a registered
id whose run token is still unset fails with the NotStarted error and
leaves the registry unchanged; once the run token is set, cancel invokes
the engine's cancel operation — on success the entry is removed and a
subsequent cancel of the same id returns NotFound, while on a `False`
return or a raised exception the entry is left intact so a later attempt
can retry. -/
theorem cancel_agent_run_spec (cr : Nat → String → AgnoCancelOutcome)
    (reg : Registry) (id : String) :
    (reg.find id = none →
      cancel_agent_run cr reg id =
        ({ success := false, error := some "Agent not found or already completed" }, reg))
    ∧ (∀ info, reg.find id = some info → truthy info.run_id = none →
      cancel_agent_run cr reg id =
        ({ success := false, error := some "Execution not started yet" }, reg))
    ∧ (∀ info rid, reg.find id = some info → truthy info.run_id = some rid →
      cr info.agent rid = .ok true →
      cancel_agent_run cr reg id = ({ success := true, error := none }, reg.eraseKey id)
      ∧ ∀ cr2, cancel_agent_run cr2 (reg.eraseKey id) id =
          ({ success := false, error := some "Agent not found or already completed" },
           reg.eraseKey id))
    ∧ (∀ info rid, reg.find id = some info → truthy info.run_id = some rid →
      cr info.agent rid = .ok false →
      cancel_agent_run cr reg id =
        ({ success := false, error := some "Cancel failed - run may be completed" }, reg))
    ∧ (∀ info rid msg, reg.find id = some info → truthy info.run_id = some rid →
      cr info.agent rid = .exn msg →
      cancel_agent_run cr reg id = ({ success := false, error := some msg }, reg)) := by
  refine ⟨?_, ?_, ?_, ?_, ?_⟩
  · intro h; simp [cancel_agent_run, h]
  · intro info h1 h2; simp [cancel_agent_run, h1, h2]
  · intro info rid h1 h2 h3
    refine ⟨by simp [cancel_agent_run, h1, h2, h3], fun cr2 => ?_⟩
    simp [cancel_agent_run, Registry.find_eraseKey_self]
  · intro info rid h1 h2 h3; simp [cancel_agent_run, h1, h2, h3]
  · intro info rid msg h1 h2 h3; simp [cancel_agent_run, h1, h2, h3]

/-- Witness for `cancel_agent_run_spec`: the register → cancel (NotStarted)
→ set-run-token → cancel (success) → cancel (NotFound) scenario of the
spec, at the concrete registry `[("e1", entry)]` and an engine that
reports success. -/
theorem cancel_agent_run_spec_witness :
    (cancel_agent_run (fun _ _ => .ok true) [("e1", { agent := 0 })] "e1" =
      ({ success := false, error := some "Execution not started yet" },
       [("e1", { agent := 0 })]))
    ∧ (cancel_agent_run (fun _ _ => .ok true)
        [("e1", { agent := 0, run_id := some "r1" })] "e1" =
      ({ success := true, error := none }, []))
    ∧ (cancel_agent_run (fun _ _ => .ok true) [] "e1" =
      ({ success := false, error := some "Agent not found or already completed" }, [])) := by
  have h1 := (cancel_agent_run_spec (fun _ _ => .ok true) [("e1", { agent := 0 })] "e1").2.1
      { agent := 0 } (by decide) (by decide)
  have h2 := (cancel_agent_run_spec (fun _ _ => .ok true)
      [("e1", { agent := 0, run_id := some "r1" })] "e1").2.2.1
      { agent := 0, run_id := some "r1" } "r1" (by decide) (by decide) (by decide)
  have h3 := (cancel_agent_run_spec (fun _ _ => .ok true) [] "e1").1 (by decide)
  exact ⟨h1, h2.1, h3⟩

/-- Error raised by one attempt of a wrapped operation: a timeout-class
error (`httpx.TimeoutException`) or any other exception with `str(e)`. -/
inductive OpError
  | timeout
  | fatal (msg : String)
  deriving Repr, DecidableEq

/-- The default classification of the retry wrapper: timeout-class errors
are retryable, everything else is fatal. -/
def classify_retryable : OpError → Bool
  | .timeout => true
  | .fatal _ => false

/-- Trace of one call through the retry wrapper: how many times the
operation was attempted, the sleeps performed between consecutive
attempts (in seconds), and the final outcome. -/
structure RetryTrace (α : Type) where
  attempts : Nat
  sleeps : List ℚ
  outcome : Except OpError α
  deriving Repr

/-- Modelled from the spec: `retry_with_backoff` lives in
`utils/retry_utils`, which is not under `src/` (only its callers in
`services/session_service.py` are).  Per the RetryPolicy contract, the
operation is attempted up to `maxRetries + 1` times; after each failure
`classify` decides retryable vs fatal; fatal errors abort immediately and
propagate; retryable errors sleep `initialDelay * 2 ^ attempt` (attempt
starting at 0) before the next try, except after the final attempt, where
the error propagates.  `fuel` counts the retries still allowed. -/
def retry_go (op : Nat → Except OpError α) (initial_delay : ℚ) :
    Nat → Nat → RetryTrace α
  | attempt, 0 =>
    match op attempt with
    | .ok a => { attempts := 1, sleeps := [], outcome := .ok a }
    | .error e => { attempts := 1, sleeps := [], outcome := .error e }
  | attempt, f + 1 =>
    match op attempt with
    | .ok a => { attempts := 1, sleeps := [], outcome := .ok a }
    | .error e =>
      if classify_retryable e then
        let rest := retry_go op initial_delay (attempt + 1) f
        { attempts := rest.attempts + 1,
          sleeps := initial_delay * 2 ^ attempt :: rest.sleeps,
          outcome := rest.outcome }
      else { attempts := 1, sleeps := [], outcome := .error e }

/-- Modelled from the spec: the decorator entry point
`retry_with_backoff(max_retries, initial_delay)` applied to an operation
(the decorated function body, indexed by attempt number). -/
def retry_with_backoff (op : Nat → Except OpError α)
    (max_retries : Nat) (initial_delay : ℚ) : RetryTrace α :=
  retry_go op initial_delay 0 max_retries

/-- Claim C2: with `max_retries = 3` and `initial_delay = 1.0`, an
operation that always raises a timeout-classified error is attempted
exactly 4 times with sleeps of 1, 2 and 4 seconds between consecutive
attempts, and after the final attempt the timeout propagates; an
operation that always raises a non-timeout error is attempted exactly
once and the error propagates. -/
theorem retry_with_backoff_spec :
    (∀ α : Type, retry_with_backoff (α := α) (fun _ => .error .timeout) 3 1 =
      { attempts := 4, sleeps := [1, 2, 4], outcome := .error .timeout })
    ∧ (∀ (α : Type) (msg : String),
      retry_with_backoff (α := α) (fun _ => .error (.fatal msg)) 3 1 =
        { attempts := 1, sleeps := [], outcome := .error (.fatal msg) }) := by
  constructor
  · intro α
    show retry_go _ _ 0 3 = _
    norm_num [retry_go, classify_retryable]
  · intro α msg
    rfl

/-- A message as stored by the control plane: a dict whose `role` and
`content` keys may be absent (`none` models an absent key, read with
`msg.get(key, default)` in the source). -/
structure RawMessage where
  role : Option String := none
  content : Option String := none
  deriving Repr, DecidableEq

/-- The pure projection produced by
`SessionService.build_conversation_context`
(services/session_service.py:117): keep only role and content. -/
structure ContextMessage where
  role : String
  content : String
  deriving Repr, DecidableEq

/-- `SessionService.build_conversation_context`: for each message append
`{"role": msg.get("role", "user"), "content": msg.get("content", "")}`. -/
def build_conversation_context (session_messages : List RawMessage) : List ContextMessage :=
  session_messages.map fun msg =>
    { role := msg.role.getD "user", content := msg.content.getD "" }

/-- Claim C10: `build_conversation_context` preserves the length and order
of its input, each output element keeps exactly the role and content of
the corresponding input element, with `"user"` substituted for a missing
role and `""` for missing content; as a total function it raises for no
input list. -/
theorem build_conversation_context_spec (session_messages : List RawMessage) :
    (build_conversation_context session_messages).length = session_messages.length
    ∧ ∀ i : Nat, (build_conversation_context session_messages)[i]? =
        (session_messages[i]?).map fun msg =>
          ({ role := msg.role.getD "user", content := msg.content.getD "" } : ContextMessage) := by
  refine ⟨by simp [build_conversation_context], fun i => ?_⟩
  simp [build_conversation_context]

/-- One answer of the control-plane store to
`control_plane.get_session(...)`: session data with a message list, a
falsy response (no session found), a raised `httpx.TimeoutException`, or
any other raised exception. -/
inductive StoreLoadResp
  | data (messages : List RawMessage)
  | missing
  | timeout
  | failure (msg : String)
  deriving Repr, DecidableEq

/-- The body of `SessionService.load_session`
(services/session_service.py:25) for one attempt: empty/absent session id
returns `[]`; otherwise the store is consulted — data with a truthy
message list is returned, a falsy response yields `[]`, a
`httpx.TimeoutException` is re-raised for the retry decorator, and any
other exception is swallowed and yields `[]`. -/
def load_session_body (session_id : Option String)
    (store : Nat → StoreLoadResp) (attempt : Nat) : Except OpError (List RawMessage) :=
  match truthy session_id with
  | none => .ok []
  | some _ =>
    match store attempt with
    | .data msgs => if msgs.isEmpty then .ok [] else .ok msgs
    | .missing => .ok []
    | .timeout => .error .timeout
    | .failure _ => .ok []

/-- `SessionService.load_session`: the body wrapped in
`@retry_with_backoff(max_retries=3, initial_delay=1.0)`. -/
def load_session (session_id : Option String)
    (store : Nat → StoreLoadResp) : RetryTrace (List RawMessage) :=
  retry_with_backoff (load_session_body session_id store) 3 1

/-- Counterexample to claim C7 as stated: against a store whose load
always raises a timeout-class error, `load_session` does not return the
empty sequence — after the 4 attempts are exhausted the timeout
propagates out of the wrapped call. -/
theorem load_session_timeout_cex :
    ¬ ((load_session (some "s1") fun _ => .timeout).outcome = .ok [])
    ∧ (load_session (some "s1") fun _ => .timeout).outcome = .error .timeout
    ∧ (load_session (some "s1") fun _ => .timeout).attempts = 4 := by
  refine ⟨?_, rfl, rfl⟩
  intro h
  simpa using (show Except.error OpError.timeout = Except.ok ([] : List RawMessage) from h)

/-- Claim C7 as amended: `load_session` returns the empty sequence
without raising, on the first attempt, when the session id is empty or
absent, when the store reports not-found, and on any non-timeout store
error; only timeout-class errors trigger retries, and when all retries on
a timeout-class failure are exhausted the timeout error propagates (with
4 attempts performed and backoff sleeps of 1, 2 and 4 seconds) rather
than yielding the empty sequence. -/
theorem load_session_spec (store : Nat → StoreLoadResp) :
    (∀ sid, truthy sid = none →
      load_session sid store = { attempts := 1, sleeps := [], outcome := .ok [] })
    ∧ (store 0 = .missing → ∀ sid,
      load_session sid store = { attempts := 1, sleeps := [], outcome := .ok [] })
    ∧ (∀ m, store 0 = .failure m → ∀ sid,
      load_session sid store = { attempts := 1, sleeps := [], outcome := .ok [] })
    ∧ ((∀ n, store n = .timeout) → ∀ s, s ≠ "" →
      load_session (some s) store =
        { attempts := 4, sleeps := [1, 2, 4], outcome := .error .timeout }) := by
  refine ⟨?_, ?_, ?_, ?_⟩
  · intro sid h
    simp [load_session, retry_with_backoff, retry_go, load_session_body, h]
  · intro h sid
    cases hs : truthy sid with
    | none => simp [load_session, retry_with_backoff, retry_go, load_session_body, hs]
    | some s => simp [load_session, retry_with_backoff, retry_go, load_session_body, hs, h]
  · intro m h sid
    cases hs : truthy sid with
    | none => simp [load_session, retry_with_backoff, retry_go, load_session_body, hs]
    | some s => simp [load_session, retry_with_backoff, retry_go, load_session_body, hs, h]
  · intro h s hs
    simp [load_session, retry_with_backoff, retry_go, load_session_body, truthy, hs, h,
      classify_retryable]
    norm_num

/-- Witness for `load_session_spec`: concrete store behaviors — a
not-found store answers with one attempt and the empty list, an
always-timeout store exhausts 4 attempts and propagates. -/
theorem load_session_spec_witness :
    (load_session (some "s1") (fun _ => .missing) =
      { attempts := 1, sleeps := [], outcome := .ok [] })
    ∧ (load_session (some "s1") (fun _ => .timeout) =
      { attempts := 4, sleeps := [1, 2, 4], outcome := .error .timeout }) :=
  ⟨(load_session_spec fun _ => .missing).2.1 rfl (some "s1"),
   (load_session_spec fun _ => .timeout).2.2.2 (fun _ => rfl) "s1" (by decide)⟩

/-- One answer of the control-plane store to
`control_plane.persist_session(...)`: a boolean return or a raised
exception (timeout or otherwise). -/
inductive StorePersistResp
  | ok (b : Bool)
  | timeout
  | failure (msg : String)
  deriving Repr, DecidableEq

/-- Record of one invocation of the store's persist operation, with the
arguments the source passes. -/
structure PersistStoreCall where
  execution_id : String
  session_id : String
  user_id : Option String
  messages : List Message
  metadata : List (String × String)
  deriving Repr, DecidableEq

/-- The body of `SessionService.persist_session`
(services/session_service.py:72) for one attempt, instrumented with the
list of store invocations it performs: an empty message list returns
`True` with no store call; otherwise the store is invoked with
`session_id or execution_id` and its boolean is returned; every raised
exception — `httpx.TimeoutException` included, since the body's
`except Exception` catches it — yields `False`.  The body therefore
never raises, so the retry decorator never re-runs it. -/
def persist_session_body (execution_id session_id : String) (user_id : Option String)
    (messages : List Message) (metadata : List (String × String))
    (store : Nat → StorePersistResp) (attempt : Nat) :
    Except OpError (Bool × List PersistStoreCall) :=
  if messages.isEmpty then .ok (true, [])
  else
    let call : PersistStoreCall :=
      { execution_id,
        session_id := if session_id = "" then execution_id else session_id,
        user_id, messages, metadata }
    match store attempt with
    | .ok b => .ok (b, [call])
    | .timeout => .ok (false, [call])
    | .failure _ => .ok (false, [call])

/-- `SessionService.persist_session`: the body wrapped in
`@retry_with_backoff(max_retries=3, initial_delay=1.0)`. -/
def persist_session (execution_id session_id : String) (user_id : Option String)
    (messages : List Message) (metadata : List (String × String))
    (store : Nat → StorePersistResp) : RetryTrace (Bool × List PersistStoreCall) :=
  retry_with_backoff
    (persist_session_body execution_id session_id user_id messages metadata store) 3 1

/-- Claim C8: `persist_session` on an empty message list returns `True`
immediately — one attempt, no sleeps, and no invocation of the store's
persist operation — for every execution id, session id, user id,
metadata and store behavior. -/
theorem persist_session_empty_spec (execution_id session_id : String)
    (user_id : Option String) (metadata : List (String × String))
    (store : Nat → StorePersistResp) :
    persist_session execution_id session_id user_id [] metadata store =
      { attempts := 1, sleeps := [], outcome := .ok (true, []) } := rfl

/-- One message of an Agno run result, as read by
`SessionService.extract_messages_from_result`: `none` in `created_at` /
`user_id` models a missing attribute (read with `getattr(msg, ..., d)`).
The always-`None` `user_name` / `user_email` attributes are omitted. -/
structure ResultMessage where
  role : String
  content : String
  created_at : Option Nat := none
  user_id : Option String := none
  deriving Repr, DecidableEq

/-- The object returned by the (exhausted) Agno run: `content` and
`messages` are `none` when the attribute is absent (`hasattr` false), and
`str_repr` models `str(result)`. -/
structure AgnoResult where
  content : Option String := none
  messages : Option (List ResultMessage) := none
  str_repr : String := ""
  deriving Repr, DecidableEq

/-- `SessionService.extract_messages_from_result`
(services/session_service.py:138): when the result has a truthy
`messages` attribute, project each entry to a persistable dict; a missing
attribute or an empty list yields no messages.  `now` stands for
`datetime.now(...)`, used when a message has no `created_at`. -/
def extract_messages_from_result (result : AgnoResult) (user_id : Option String)
    (now : Nat) : List Message :=
  match result.messages with
  | none => []
  | some msgs =>
    if msgs.isEmpty then []
    else msgs.map fun m =>
      { role := m.role, content := m.content,
        timestamp := m.created_at.getD now,
        user_id := match m.user_id with | some u => some u | none => user_id }

/-- STEP 9 of `AgentExecutorService.execute`
(services/agent_executor.py:360): the final persist's message list,
`complete_session = session_history + new_messages`. -/
def complete_session (session_history : List Message) (result : AgnoResult)
    (user_id : Option String) (now : Nat) : List Message :=
  session_history ++ extract_messages_from_result result user_id now

/-- The snapshot written by `periodic_persistence_task`
(services/agent_executor.py:271): the loaded history plus one assistant
message holding the response streamed so far. -/
def snapshot_messages (session_history : List Message) (current_response : String)
    (now : Nat) : List Message :=
  session_history ++ [{ role := "assistant", content := current_response, timestamp := now }]

/-- One wake-up of the periodic persistence loop: the accumulated
response observed at that instant (`streaming_helper.get_full_response()`),
the current time, and the answer of `persist_session` — a boolean, or a
raised exception which the task's own `except` absorbs. -/
structure Tick where
  cur : String
  now : Nat
  persist_ok : Option Bool
  deriving Repr, DecidableEq

/-- Record of one snapshot persist attempted by the periodic task. -/
structure SnapshotCall where
  cur : String
  now : Nat
  messages : List Message
  deriving Repr, DecidableEq

/-- State threaded through the periodic persistence loop:
`last_persisted_length` plus the traces of successful and of all
attempted snapshot persists. -/
structure SnapshotState where
  last_persisted_length : Nat
  succ : List SnapshotCall
  att : List SnapshotCall
  deriving Repr, DecidableEq

/-- One iteration of `periodic_persistence_task`
(services/agent_executor.py:257): persist a snapshot only when the
accumulated response is non-empty (`if current_response`) and strictly
longer than `last_persisted_length`; on a successful persist the length
is recorded; a `False` return or a raised exception leaves it unchanged
(non-fatal). -/
def periodic_step (session_history : List Message) (st : SnapshotState) (t : Tick) :
    SnapshotState :=
  if t.cur ≠ "" ∧ t.cur.length > st.last_persisted_length then
    let call : SnapshotCall := { cur := t.cur, now := t.now,
                                 messages := snapshot_messages session_history t.cur t.now }
    match t.persist_ok with
    | some true =>
      { last_persisted_length := t.cur.length,
        succ := st.succ ++ [call], att := st.att ++ [call] }
    | _ => { st with att := st.att ++ [call] }
  else st

/-- `periodic_persistence_task` over a finite run of wake-ups, starting
from `last_persisted_length = 0` and empty traces. -/
def periodic_persistence_task (session_history : List Message) (ticks : List Tick) :
    SnapshotState :=
  ticks.foldl (periodic_step session_history) { last_persisted_length := 0, succ := [], att := [] }

/-- The streamed-vs-fallback choice of the final response
(`full_response if full_response else (result.content if hasattr(result,
"content") else str(result))`, agent_activities.py:636). -/
def response_content (full_response : String) (result : AgnoResult) : String :=
  if full_response = "" then
    match result.content with
    | some c => c
    | none => result.str_repr
  else full_response

/-- The current turn's messages appended by `execute_agent_llm`
(agent_activities.py:688): the user prompt then the assistant response.
Both `datetime.now` timestamps are abstracted to the single instant
`now`; `user_name` / `user_email` are always `None` (the input dataclass
has no such fields) and are omitted from `Message`. -/
def current_turn_messages (prompt : String) (user_id : Option String) (now : Nat)
    (response : String) : List Message :=
  [{ role := "user", content := prompt, timestamp := now, user_id := user_id },
   { role := "assistant", content := response, timestamp := now }]

/-- How the awaited computation terminates inside `execute_agent_llm`:
normal completion with the accumulated streamed response and the Agno
result object, a raised exception (any `Exception` from the run or the
surrounding steps after registration), or an `asyncio.CancelledError`
injected by the platform's cancellation of the activity. -/
inductive RunOutcome
  | completed (full_response : String) (result : AgnoResult)
  | failed (err : String)
  | cancelled
  deriving Repr, DecidableEq

/-- The structured dict `execute_agent_llm` returns (the fields that
claims observe). -/
structure ExecResult where
  success : Bool
  response : Option String := none
  error : Option String := none
  deriving Repr, DecidableEq

/-- How the activity terminates: a returned structured result, or the
`asyncio.CancelledError` propagating out of the function. -/
inductive ExecExit
  | returned (r : ExecResult)
  | cancelled_exit
  deriving Repr, DecidableEq

/-- `execute_agent_llm` (activities/agent_activities.py:192), from the
registration of the agent onward, as a function of the loaded history and
the computation's outcome.  Returns the exit, the final registry, and the
message list submitted to the final session persist (when one happens).
Control flow mirrored from the source: registration stores the handle
with `run_id = None`; on normal completion the complete session
`session_history + current_turn_messages` is persisted and the entry
deleted before returning success; a raised `Exception` is caught by the
`except Exception` block, which deletes the entry and returns a failure
dict; an `asyncio.CancelledError` is a `BaseException`, so it is caught
by no handler and no statement deletes the entry — the run-token write
performed by the streaming loop before the cancellation only mutates the
entry's `run_id` field (see `Registry.set_run_id`), never the key set. -/
def execute_agent_llm (execution_id prompt : String) (user_id : Option String)
    (session_history : List Message) (agent : Nat) (now : Nat)
    (outcome : RunOutcome) (reg : Registry) :
    ExecExit × Registry × Option (List Message) :=
  let reg1 := reg.insert execution_id { agent := agent, run_id := none, started_at := now }
  match outcome with
  | .cancelled => (.cancelled_exit, reg1, none)
  | .failed err =>
    let reg2 := reg1.eraseKey execution_id
    (.returned { success := false, error := some err }, reg2, none)
  | .completed full_response result =>
    let rc := response_content full_response result
    let updated := session_history ++ current_turn_messages prompt user_id now rc
    let reg2 := reg1.eraseKey execution_id
    (.returned { success := true, response := some rc }, reg2, some updated)

/-- Claim C3 evaluated on the code: the registry entry created at
registration is removed on the normal-completion exit and on the
failure exit of `execute_agent_llm`, but the cancellation exit leaves the
execution id registered — the cleanup lives in an `except Exception`
block (and a success-path statement), and `asyncio.CancelledError` is a
`BaseException` that neither catches, with no `finally` to fall back
on. -/
theorem execute_agent_llm_registry_exit (execution_id prompt : String)
    (user_id : Option String) (session_history : List Message) (agent now : Nat)
    (reg : Registry) (full_response : String) (result : AgnoResult) (err : String) :
    ((execute_agent_llm execution_id prompt user_id session_history agent now
        (.completed full_response result) reg).2.1.contains execution_id = false)
    ∧ ((execute_agent_llm execution_id prompt user_id session_history agent now
        (.failed err) reg).2.1.contains execution_id = false)
    ∧ ((execute_agent_llm execution_id prompt user_id session_history agent now
        .cancelled reg).2.1.contains execution_id = true) := by
  refine ⟨?_, ?_, ?_⟩
  · simp [execute_agent_llm, Registry.contains, Registry.find_eraseKey_self]
  · simp [execute_agent_llm, Registry.contains, Registry.find_eraseKey_self]
  · simp [execute_agent_llm, Registry.contains, Registry.find_insert_self]

/-- Counterexample to claim C4 as stated: with empty loaded history and a
snapshot of the partial response "A", a final result carrying no
extractable messages gives a final persist strictly shorter than the
snapshot, and a final result carrying the turn's user and assistant
messages gives a final persist of which the snapshot is not a prefix
(its first element is the user message, the snapshot's is the assistant
snapshot). -/
theorem snapshot_prefix_cex :
    ((complete_session [] { str_repr := "r" } none 2).length
        < (snapshot_messages [] "A" 1).length)
    ∧ ¬ (snapshot_messages [] "A" 1 <+:
          complete_session []
            { messages := some [{ role := "user", content := "p" },
                                { role := "assistant", content := "AB" }],
              str_repr := "r" }
            none 2) := by
  constructor
  · decide
  · decide

/-- Claim C4 as amended: every snapshot and the final persist agree on
the loaded session history as a common prefix — the snapshot appends one
assistant message to it and the final persist appends the messages
extracted from the result — and the final persist's message count is
greater than or equal to a snapshot's count exactly when at least one
message is extracted from the result; the snapshot itself need not be a
prefix of the final write. -/
theorem snapshot_final_common_prefix (session_history : List Message) (cur : String)
    (n1 : Nat) (result : AgnoResult) (user_id : Option String) (n2 : Nat) :
    (session_history <+: snapshot_messages session_history cur n1)
    ∧ (session_history <+: complete_session session_history result user_id n2)
    ∧ ((snapshot_messages session_history cur n1).length ≤
          (complete_session session_history result user_id n2).length ↔
        1 ≤ (extract_messages_from_result result user_id n2).length) := by
  refine ⟨List.prefix_append _ _, List.prefix_append _ _, ?_⟩
  simp [snapshot_messages, complete_session]

/-- Counterexample to claim C5 as stated: an execution that completes
normally with accumulated response `R = ""` does not persist
`H ++ [user(prompt), assistant(R)]` — the assistant message carries the
result object's `content` attribute ("X") instead of the accumulated
response. -/
theorem execute_agent_llm_empty_response_cex :
    (execute_agent_llm "e1" "p" none [] 0 3
        (.completed "" { content := some "X", str_repr := "X" }) []).2.2
      ≠ some ([] ++ current_turn_messages "p" none 3 "") := by decide

/-- Claim C5 as amended: for every execution that completes normally with
a non-empty accumulated response `R`, the final persisted session equals
exactly the loaded history followed by one user message containing the
input prompt followed by one assistant message containing `R`, in that
order — loaded messages are never reordered or dropped, only appended to.
(When `R` is empty the assistant message instead carries the result's
`content` attribute, or its string rendering, still appended after the
history and the user message.) -/
theorem execute_agent_llm_final_session_spec (execution_id prompt : String)
    (user_id : Option String) (session_history : List Message) (agent now : Nat)
    (full_response : String) (result : AgnoResult) (reg : Registry)
    (h : full_response ≠ "") :
    (execute_agent_llm execution_id prompt user_id session_history agent now
        (.completed full_response result) reg).2.2
      = some (session_history ++ current_turn_messages prompt user_id now full_response) := by
  simp [execute_agent_llm, response_content, h]

/-- Witness for `execute_agent_llm_final_session_spec` at a concrete
history, prompt and accumulated response. -/
theorem execute_agent_llm_final_session_spec_witness :
    ("AB" : String) ≠ ""
    ∧ (execute_agent_llm "e1" "hi" none [{ role := "user", content := "old" }] 0 3
        (.completed "AB" {}) []).2.2
      = some ([{ role := "user", content := "old" }]
          ++ current_turn_messages "hi" none 3 "AB") :=
  ⟨by decide,
   execute_agent_llm_final_session_spec "e1" "hi" none
     [{ role := "user", content := "old" }] 0 3 "AB" {} [] (by decide)⟩

/-- Step characterization: when the guard fails the loop body does
nothing. -/
theorem periodic_step_skip (session_history : List Message) (st : SnapshotState) (t : Tick)
    (hg : ¬ (t.cur ≠ "" ∧ t.cur.length > st.last_persisted_length)) :
    periodic_step session_history st t = st := by
  simp only [periodic_step]
  rw [if_neg hg]

/-- Step characterization: guard true and a successful persist record the
snapshot and the new length. -/
theorem periodic_step_hit (session_history : List Message) (st : SnapshotState) (t : Tick)
    (hg : t.cur ≠ "" ∧ t.cur.length > st.last_persisted_length)
    (hpo : t.persist_ok = some true) :
    periodic_step session_history st t =
      { last_persisted_length := t.cur.length,
        succ := st.succ
          ++ [{ cur := t.cur, now := t.now,
                messages := snapshot_messages session_history t.cur t.now }],
        att := st.att
          ++ [{ cur := t.cur, now := t.now,
                messages := snapshot_messages session_history t.cur t.now }] } := by
  simp only [periodic_step, hpo]
  rw [if_pos hg]

/-- Step characterization: guard true and a failed or raising persist
record only the attempt. -/
theorem periodic_step_miss (session_history : List Message) (st : SnapshotState) (t : Tick)
    (hg : t.cur ≠ "" ∧ t.cur.length > st.last_persisted_length)
    (hpo : t.persist_ok = none ∨ t.persist_ok = some false) :
    periodic_step session_history st t =
      { st with att := st.att
          ++ [{ cur := t.cur, now := t.now,
                messages := snapshot_messages session_history t.cur t.now }] } := by
  rcases hpo with hpo | hpo <;>
    · simp only [periodic_step, hpo]
      rw [if_pos hg]

/-- Invariant of the periodic persistence loop: the lengths of the
successfully persisted snapshots are strictly increasing, all bounded by
`last_persisted_length`, and every attempted snapshot has the
history-plus-one-assistant-message shape with non-empty content. -/
theorem periodic_fold_inv (session_history : List Message) (ticks : List Tick)
    (st : SnapshotState)
    (h1 : (st.succ.map fun c => c.cur.length).Pairwise (· < ·))
    (h2 : ∀ c ∈ st.succ, c.cur.length ≤ st.last_persisted_length)
    (h3 : ∀ c ∈ st.att,
      c.messages = snapshot_messages session_history c.cur c.now ∧ c.cur ≠ "") :
    ((ticks.foldl (periodic_step session_history) st).succ.map
        fun c => c.cur.length).Pairwise (· < ·)
    ∧ (∀ c ∈ (ticks.foldl (periodic_step session_history) st).succ,
        c.cur.length ≤ (ticks.foldl (periodic_step session_history) st).last_persisted_length)
    ∧ (∀ c ∈ (ticks.foldl (periodic_step session_history) st).att,
        c.messages = snapshot_messages session_history c.cur c.now ∧ c.cur ≠ "") := by
  induction ticks generalizing st with
  | nil => exact ⟨h1, h2, h3⟩
  | cons t ts ih =>
    simp only [List.foldl_cons]
    by_cases hg : t.cur ≠ "" ∧ t.cur.length > st.last_persisted_length
    · rcases hpo : t.persist_ok with _ | b
      · rw [periodic_step_miss session_history st t hg (Or.inl hpo)]
        refine ih _ h1 h2 ?_
        intro c hc
        rcases List.mem_append.1 hc with hc | hc
        · exact h3 c hc
        · rcases List.mem_singleton.1 hc with rfl
          exact ⟨rfl, hg.1⟩
      · cases b
        · rw [periodic_step_miss session_history st t hg (Or.inr hpo)]
          refine ih _ h1 h2 ?_
          intro c hc
          rcases List.mem_append.1 hc with hc | hc
          · exact h3 c hc
          · rcases List.mem_singleton.1 hc with rfl
            exact ⟨rfl, hg.1⟩
        · rw [periodic_step_hit session_history st t hg hpo]
          refine ih _ ?_ ?_ ?_
          · rw [List.map_append, List.pairwise_append]
            refine ⟨h1, by simp, ?_⟩
            intro a ha b hb
            rcases List.mem_singleton.1 (by simpa using hb) with rfl
            obtain ⟨c, hc, rfl⟩ := List.mem_map.1 ha
            exact lt_of_le_of_lt (h2 c hc) hg.2
          · intro c hc
            rcases List.mem_append.1 hc with hc | hc
            · exact le_of_lt (lt_of_le_of_lt (h2 c hc) hg.2)
            · rcases List.mem_singleton.1 hc with rfl
              exact le_refl _
          · intro c hc
            rcases List.mem_append.1 hc with hc | hc
            · exact h3 c hc
            · rcases List.mem_singleton.1 hc with rfl
              exact ⟨rfl, hg.1⟩
    · rw [periodic_step_skip session_history st t hg]
      exact ih _ h1 h2 h3

/-- Claim C9: every snapshot attempted by the periodic persistence task
equals the loaded history plus exactly one assistant message containing
the response accumulated so far, with non-empty content (so no snapshot
happens before any content has streamed); a snapshot persist is attempted
in a step exactly when the accumulated response is non-empty and strictly
longer than the length recorded at the last successful persist; and the
accumulated lengths of the successful snapshots are strictly increasing,
hence pairwise distinct. -/
theorem periodic_persistence_task_spec (session_history : List Message)
    (ticks : List Tick) :
    ((periodic_persistence_task session_history ticks).att.Forall fun c =>
        c.messages = snapshot_messages session_history c.cur c.now ∧ c.cur ≠ "")
    ∧ (((periodic_persistence_task session_history ticks).succ.map
        fun c => c.cur.length).Pairwise (· < ·))
    ∧ (((periodic_persistence_task session_history ticks).succ.map
        fun c => c.cur.length).Pairwise (· ≠ ·))
    ∧ (∀ st t, ((periodic_step session_history st t).att.length > st.att.length ↔
        t.cur ≠ "" ∧ t.cur.length > st.last_persisted_length)) := by
  have h := periodic_fold_inv session_history ticks
    { last_persisted_length := 0, succ := [], att := [] }
    (by simp) (by simp) (by simp)
  refine ⟨?_, h.1, h.1.imp (fun hab => Nat.ne_of_lt hab), ?_⟩
  · rw [List.forall_iff_forall_mem]
    exact h.2.2
  · intro st t
    by_cases hg : t.cur ≠ "" ∧ t.cur.length > st.last_persisted_length
    · rcases hpo : t.persist_ok with _ | b
      · rw [periodic_step_miss session_history st t hg (Or.inl hpo)]
        simpa using hg
      · cases b
        · rw [periodic_step_miss session_history st t hg (Or.inr hpo)]
          simpa using hg
        · rw [periodic_step_hit session_history st t hg hpo]
          simpa using hg
    · rw [periodic_step_skip session_history st t hg]
      simpa using hg

/-- One streaming chunk produced by the Agno run: `none` models a missing
attribute (the source guards with `hasattr(chunk, ...)`), and Python
truthiness additionally discards empty strings (see `truthy`). -/
structure Chunk where
  run_id : Option String := none
  content : Option String := none
  deriving Repr, DecidableEq

/-- One event published to the control plane
(`control_plane.publish_event`), restricted to the fields the streaming
loop fills for `run_started` and `message_chunk` events. -/
structure Event where
  event_type : String
  run_id : Option String := none
  content : Option String := none
  message_id : Option String := none
  deriving Repr, DecidableEq

/-- State of the streaming loop in `stream_agent_run`
(agent_activities.py:541): the `run_id_published` flag, the accumulated
`full_response`, the events published so far and the registry (the
`response_chunks` list, only ever a mirror of the accumulation, is
omitted). -/
structure StreamState where
  run_id_published : Bool
  full_response : String
  events : List Event
  registry : Registry
  deriving Repr, DecidableEq

/-- First half of the loop body: on the first chunk carrying a truthy
`run_id`, store it in the registry entry and publish a `run_started`
event; afterwards (or on chunks without one) do nothing. -/
def handle_run_id (execution_id : String) (st : StreamState) (chunk : Chunk) : StreamState :=
  match st.run_id_published, truthy chunk.run_id with
  | false, some rid =>
    { st with
      registry := st.registry.set_run_id execution_id rid,
      events := st.events ++ [{ event_type := "run_started", run_id := some rid }],
      run_id_published := true }
  | _, _ => st

/-- Second half of the loop body: on a truthy `content`, append it to the
accumulator and publish a `message_chunk` event tagged with the turn's
`message_id`. -/
def handle_content_chunk (message_id : String) (st : StreamState) (chunk : Chunk) :
    StreamState :=
  match truthy chunk.content with
  | some c =>
    { st with
      full_response := st.full_response ++ c,
      events := st.events ++ [{ event_type := "message_chunk", content := some c,
                                message_id := some message_id }] }
  | none => st

/-- One iteration of the `for chunk in run_response` loop. -/
def stream_step (execution_id message_id : String) (st : StreamState) (chunk : Chunk) :
    StreamState :=
  handle_content_chunk message_id (handle_run_id execution_id st chunk) chunk

/-- `stream_agent_run` (agent_activities.py:541) over a finite chunk
sequence, on the no-iteration-error path: fold the loop body from the
fresh per-turn state (`run_id_published = False`, empty accumulator). -/
def stream_agent_run (execution_id message_id : String) (reg : Registry)
    (chunks : List Chunk) : StreamState :=
  chunks.foldl (stream_step execution_id message_id)
    { run_id_published := false, full_response := "", events := [], registry := reg }

/-- The truthy content deltas of a chunk sequence, in order. -/
def delta_list (chunks : List Chunk) : List String :=
  chunks.filterMap fun c => truthy c.content

/-- Concatenation of the truthy content deltas, in order. -/
def concat_deltas (chunks : List Chunk) : String :=
  (delta_list chunks).foldl (fun a s => a ++ s) ""

/-- The first truthy run token of a chunk sequence, if any. -/
def first_run_token (chunks : List Chunk) : Option String :=
  (chunks.filterMap fun c => truthy c.run_id).head?

/-- The run tokens of the `run_started` events in an event list. -/
def run_started_tokens (evs : List Event) : List String :=
  evs.filterMap fun e => if e.event_type = "run_started" then e.run_id else none

/-- The (content, message id) pairs of the `message_chunk` events in an
event list. -/
def message_chunk_records (evs : List Event) : List (Option String × Option String) :=
  evs.filterMap fun e =>
    if e.event_type = "message_chunk" then some (e.content, e.message_id) else none

theorem handle_run_id_hit (execution_id : String) (st : StreamState) (chunk : Chunk)
    (rid : String) (hp : st.run_id_published = false)
    (hr : truthy chunk.run_id = some rid) :
    handle_run_id execution_id st chunk =
      { st with
        registry := st.registry.set_run_id execution_id rid,
        events := st.events ++ [{ event_type := "run_started", run_id := some rid }],
        run_id_published := true } := by
  simp only [handle_run_id, hp, hr]

theorem handle_run_id_skip (execution_id : String) (st : StreamState) (chunk : Chunk)
    (h : st.run_id_published = true ∨ truthy chunk.run_id = none) :
    handle_run_id execution_id st chunk = st := by
  rcases h with h | h
  · simp only [handle_run_id, h]
  · simp only [handle_run_id, h]
    cases st.run_id_published <;> rfl

theorem handle_content_chunk_hit (message_id : String) (st : StreamState) (chunk : Chunk)
    (c : String) (hc : truthy chunk.content = some c) :
    handle_content_chunk message_id st chunk =
      { st with
        full_response := st.full_response ++ c,
        events := st.events ++ [{ event_type := "message_chunk", content := some c,
                                  message_id := some message_id }] } := by
  simp only [handle_content_chunk, hc]

theorem handle_content_chunk_skip (message_id : String) (st : StreamState) (chunk : Chunk)
    (hc : truthy chunk.content = none) :
    handle_content_chunk message_id st chunk = st := by
  simp only [handle_content_chunk, hc]

/-- The zero-or-one-element list of an optional token. -/
def token_list : Option String → List String
  | some t => [t]
  | none => []

theorem run_started_tokens_append (l1 l2 : List Event) :
    run_started_tokens (l1 ++ l2) = run_started_tokens l1 ++ run_started_tokens l2 := by
  simp [run_started_tokens, List.filterMap_append]

theorem message_chunk_records_append (l1 l2 : List Event) :
    message_chunk_records (l1 ++ l2) =
      message_chunk_records l1 ++ message_chunk_records l2 := by
  simp [message_chunk_records, List.filterMap_append]

theorem run_started_tokens_rs (rid : String) :
    run_started_tokens [{ event_type := "run_started", run_id := some rid }] = [rid] := by
  simp [run_started_tokens]

theorem run_started_tokens_mc (c mid : Option String) :
    run_started_tokens [{ event_type := "message_chunk", content := c,
                          message_id := mid }] = [] := by
  simp [run_started_tokens]

theorem message_chunk_records_rs (rid : String) :
    message_chunk_records [{ event_type := "run_started", run_id := some rid }] = [] := by
  simp [message_chunk_records]

theorem message_chunk_records_mc (c mid : Option String) :
    message_chunk_records [{ event_type := "message_chunk", content := c,
                             message_id := mid }] = [(c, mid)] := by
  simp [message_chunk_records]

theorem handle_run_id_fields (execution_id : String) (st : StreamState) (chunk : Chunk) :
    (handle_run_id execution_id st chunk).full_response = st.full_response
    ∧ message_chunk_records (handle_run_id execution_id st chunk).events =
        message_chunk_records st.events
    ∧ run_started_tokens (handle_run_id execution_id st chunk).events =
        run_started_tokens st.events
          ++ (if st.run_id_published then [] else token_list (truthy chunk.run_id))
    ∧ (handle_run_id execution_id st chunk).run_id_published =
        (st.run_id_published || (truthy chunk.run_id).isSome)
    ∧ (handle_run_id execution_id st chunk).registry =
        (if st.run_id_published then st.registry
         else match truthy chunk.run_id with
              | some t => st.registry.set_run_id execution_id t
              | none => st.registry) := by
  cases hp : st.run_id_published
  · cases hr : truthy chunk.run_id with
    | none =>
      rw [handle_run_id_skip execution_id st chunk (Or.inr hr)]
      simp [hp, hr, token_list]
    | some t =>
      rw [handle_run_id_hit execution_id st chunk t hp hr]
      simp [hp, hr, token_list, run_started_tokens_append, run_started_tokens_rs,
        message_chunk_records_append, message_chunk_records_rs]
  · rw [handle_run_id_skip execution_id st chunk (Or.inl hp)]
    simp [hp]

theorem handle_content_chunk_fields (message_id : String) (st : StreamState)
    (chunk : Chunk) :
    (handle_content_chunk message_id st chunk).full_response =
        st.full_response ++ (truthy chunk.content).getD ""
    ∧ message_chunk_records (handle_content_chunk message_id st chunk).events =
        message_chunk_records st.events
          ++ (match truthy chunk.content with
              | some c => [(some c, some message_id)]
              | none => [])
    ∧ run_started_tokens (handle_content_chunk message_id st chunk).events =
        run_started_tokens st.events
    ∧ (handle_content_chunk message_id st chunk).run_id_published = st.run_id_published
    ∧ (handle_content_chunk message_id st chunk).registry = st.registry := by
  cases hcc : truthy chunk.content with
  | none =>
    rw [handle_content_chunk_skip message_id st chunk hcc]
    simp [hcc, String.append_empty]
  | some c =>
    rw [handle_content_chunk_hit message_id st chunk c hcc]
    simp [hcc, message_chunk_records_append, message_chunk_records_mc,
      run_started_tokens_append, run_started_tokens_mc]

theorem stream_step_resp (execution_id message_id : String) (st : StreamState)
    (chunk : Chunk) :
    (stream_step execution_id message_id st chunk).full_response =
      st.full_response ++ (truthy chunk.content).getD "" := by
  unfold stream_step
  rw [(handle_content_chunk_fields message_id (handle_run_id execution_id st chunk) chunk).1,
    (handle_run_id_fields execution_id st chunk).1]

theorem stream_step_mc (execution_id message_id : String) (st : StreamState)
    (chunk : Chunk) :
    message_chunk_records (stream_step execution_id message_id st chunk).events =
      message_chunk_records st.events
        ++ (match truthy chunk.content with
            | some c => [(some c, some message_id)]
            | none => []) := by
  unfold stream_step
  rw [(handle_content_chunk_fields message_id (handle_run_id execution_id st chunk) chunk).2.1,
    (handle_run_id_fields execution_id st chunk).2.1]

theorem stream_step_rs (execution_id message_id : String) (st : StreamState)
    (chunk : Chunk) :
    run_started_tokens (stream_step execution_id message_id st chunk).events =
      run_started_tokens st.events
        ++ (if st.run_id_published then [] else token_list (truthy chunk.run_id)) := by
  unfold stream_step
  rw [(handle_content_chunk_fields message_id (handle_run_id execution_id st chunk) chunk).2.2.1,
    (handle_run_id_fields execution_id st chunk).2.2.1]

theorem stream_step_pub (execution_id message_id : String) (st : StreamState)
    (chunk : Chunk) :
    (stream_step execution_id message_id st chunk).run_id_published =
      (st.run_id_published || (truthy chunk.run_id).isSome) := by
  unfold stream_step
  rw [(handle_content_chunk_fields message_id (handle_run_id execution_id st chunk) chunk).2.2.2.1,
    (handle_run_id_fields execution_id st chunk).2.2.2.1]

theorem stream_step_reg (execution_id message_id : String) (st : StreamState)
    (chunk : Chunk) :
    (stream_step execution_id message_id st chunk).registry =
      (if st.run_id_published then st.registry
       else match truthy chunk.run_id with
            | some t => st.registry.set_run_id execution_id t
            | none => st.registry) := by
  unfold stream_step
  rw [(handle_content_chunk_fields message_id (handle_run_id execution_id st chunk) chunk).2.2.2.2,
    (handle_run_id_fields execution_id st chunk).2.2.2.2]

theorem string_foldl_append (l : List String) (a : String) :
    l.foldl (fun x s => x ++ s) a = a ++ l.foldl (fun x s => x ++ s) "" := by
  induction l generalizing a with
  | nil => simp [String.append_empty]
  | cons s t ih =>
    simp only [List.foldl_cons]
    rw [ih (a ++ s), ih ("" ++ s), String.empty_append, String.append_assoc]

theorem delta_list_cons (ch : Chunk) (chs : List Chunk) :
    delta_list (ch :: chs) =
      (match truthy ch.content with
       | some c => c :: delta_list chs
       | none => delta_list chs) := by
  cases hcc : truthy ch.content <;> simp [delta_list, List.filterMap_cons, hcc]

theorem concat_deltas_cons (ch : Chunk) (chs : List Chunk) :
    concat_deltas (ch :: chs) = (truthy ch.content).getD "" ++ concat_deltas chs := by
  cases hcc : truthy ch.content with
  | none => simp [concat_deltas, delta_list_cons, hcc, String.empty_append]
  | some c =>
    simp only [concat_deltas, delta_list_cons, hcc, List.foldl_cons, Option.getD_some]
    rw [string_foldl_append, String.empty_append]

theorem first_run_token_cons (ch : Chunk) (chs : List Chunk) :
    first_run_token (ch :: chs) =
      (match truthy ch.run_id with
       | some t => some t
       | none => first_run_token chs) := by
  cases hr : truthy ch.run_id <;> simp [first_run_token, List.filterMap_cons, hr]

theorem stream_fold_resp (execution_id message_id : String) (chunks : List Chunk) :
    ∀ st : StreamState,
      (chunks.foldl (stream_step execution_id message_id) st).full_response =
        st.full_response ++ concat_deltas chunks := by
  induction chunks with
  | nil => intro st; simp [concat_deltas, delta_list, String.append_empty]
  | cons ch chs ih =>
    intro st
    simp only [List.foldl_cons]
    rw [ih, stream_step_resp, concat_deltas_cons, String.append_assoc]

theorem stream_fold_mc (execution_id message_id : String) (chunks : List Chunk) :
    ∀ st : StreamState,
      message_chunk_records
          ((chunks.foldl (stream_step execution_id message_id) st).events) =
        message_chunk_records st.events
          ++ (delta_list chunks).map fun c => (some c, some message_id) := by
  induction chunks with
  | nil => intro st; simp [delta_list]
  | cons ch chs ih =>
    intro st
    simp only [List.foldl_cons]
    rw [ih, stream_step_mc, delta_list_cons]
    cases hcc : truthy ch.content <;> simp [hcc]

theorem stream_fold_rs (execution_id message_id : String) (chunks : List Chunk) :
    ∀ st : StreamState,
      run_started_tokens
          ((chunks.foldl (stream_step execution_id message_id) st).events) =
        run_started_tokens st.events
          ++ (if st.run_id_published then [] else token_list (first_run_token chunks)) := by
  induction chunks with
  | nil =>
    intro st
    cases h : st.run_id_published <;> simp [first_run_token, h, token_list]
  | cons ch chs ih =>
    intro st
    simp only [List.foldl_cons]
    rw [ih, stream_step_rs, stream_step_pub, first_run_token_cons]
    cases hp : st.run_id_published
    · cases hr : truthy ch.run_id with
      | none => simp [hr, token_list]
      | some t => simp [hr, token_list]
    · simp

theorem stream_fold_reg (execution_id message_id : String) (chunks : List Chunk) :
    ∀ st : StreamState,
      (chunks.foldl (stream_step execution_id message_id) st).registry =
        (if st.run_id_published then st.registry
         else match first_run_token chunks with
              | some t => st.registry.set_run_id execution_id t
              | none => st.registry) := by
  induction chunks with
  | nil =>
    intro st
    cases h : st.run_id_published <;> simp [first_run_token, h]
  | cons ch chs ih =>
    intro st
    simp only [List.foldl_cons]
    rw [ih, stream_step_pub, stream_step_reg, first_run_token_cons]
    cases hp : st.run_id_published
    · cases hr : truthy ch.run_id with
      | none => simp [hr]
      | some t => simp [hr]
    · simp

/-- Claim C6: for every finite chunk sequence consumed by the streaming
loop, the accumulated response is the concatenation of the truthy content
deltas in order; the `run_started` events are exactly one for the first
chunk carrying a truthy run token (none when no chunk carries one), and
the registered entry's run token ends up set to that first token; and the
`message_chunk` events are exactly the deltas in order, every one tagged
with the turn's single `message_id`. -/
theorem stream_agent_run_spec (execution_id message_id : String) (reg : Registry)
    (chunks : List Chunk) (e : AgentEntry) (h : reg.find execution_id = some e) :
    (stream_agent_run execution_id message_id reg chunks).full_response =
        concat_deltas chunks
    ∧ run_started_tokens (stream_agent_run execution_id message_id reg chunks).events =
        token_list (first_run_token chunks)
    ∧ message_chunk_records (stream_agent_run execution_id message_id reg chunks).events =
        (delta_list chunks).map (fun c => (some c, some message_id))
    ∧ (stream_agent_run execution_id message_id reg chunks).registry.find execution_id =
        some { e with run_id := match first_run_token chunks with
                                | some t => some t
                                | none => e.run_id } := by
  unfold stream_agent_run
  refine ⟨?_, ?_, ?_, ?_⟩
  · rw [stream_fold_resp]
    exact String.empty_append _
  · rw [stream_fold_rs]
    simp [run_started_tokens]
  · rw [stream_fold_mc]
    simp [message_chunk_records]
  · rw [stream_fold_reg]
    simp only [if_neg (by simp : ¬ (false = true))]
    cases ht : first_run_token chunks with
    | none => simpa using h
    | some t => simp [Registry.find_set_run_id_self, h]

/-- Witness for `stream_agent_run_spec`: the chunk sequence
`[{delta:"Hel"}, {delta:"lo"}, {runToken:"r1"}, {delta:"!"}]` against a
registry holding the execution — accumulated text `"Hello!"`, exactly one
`run_started` event carrying `"r1"`, `message_chunk` events all tagged
`"m1"`, and the entry's run token set to `"r1"`. -/
theorem stream_agent_run_spec_witness :
    (Registry.find [("e1", { agent := 0 })] "e1" = some { agent := 0 })
    ∧ (stream_agent_run "e1" "m1" [("e1", { agent := 0 })]
        [{ content := some "Hel" }, { content := some "lo" },
         { run_id := some "r1" }, { content := some "!" }]).full_response = "Hello!"
    ∧ run_started_tokens (stream_agent_run "e1" "m1" [("e1", { agent := 0 })]
        [{ content := some "Hel" }, { content := some "lo" },
         { run_id := some "r1" }, { content := some "!" }]).events = ["r1"]
    ∧ message_chunk_records (stream_agent_run "e1" "m1" [("e1", { agent := 0 })]
        [{ content := some "Hel" }, { content := some "lo" },
         { run_id := some "r1" }, { content := some "!" }]).events =
        [(some "Hel", some "m1"), (some "lo", some "m1"), (some "!", some "m1")]
    ∧ (stream_agent_run "e1" "m1" [("e1", { agent := 0 })]
        [{ content := some "Hel" }, { content := some "lo" },
         { run_id := some "r1" }, { content := some "!" }]).registry.find "e1" =
        some { agent := 0, run_id := some "r1" } := by
  have h := stream_agent_run_spec "e1" "m1" [("e1", { agent := 0 })]
    [{ content := some "Hel" }, { content := some "lo" },
     { run_id := some "r1" }, { content := some "!" }] { agent := 0 } rfl
  exact ⟨rfl, h.1.trans (by decide), h.2.1.trans (by decide),
    h.2.2.1.trans (by decide), h.2.2.2.trans (by decide)⟩

end Worker
